import Mathlib

/-!
Verification model of the `upsert_machine` repository.

The repository is a small incremental-replication tool: `process_tables.py`
(config loading, watermark reading, orchestration), `get_new_data.py`
(change fetching), and `upsert_data.py` (staging + MERGE upsert engine).

The Python code drives an external SQL Server through SQLAlchemy.  The model
below embeds the database state (`Database`), the semantics of each SQL
statement the code builds (`sqlExec`), and the Python control flow of each
function, with transactions modelled as snapshot/rollback on the state.
Machine-level details (identifier quoting, connection pooling) are not part
of the core contract and are modelled transparently: table names are keyed by
the literal strings interpolated into the queries.
-/

set_option maxHeartbeats 1000000
set_option maxRecDepth 8000

namespace UpsertModel

/-- A database cell value: SQL NULL, integer, string or datetime.  Datetimes
are modelled as natural numbers (ticks since the `datetime.min` epoch). -/
inductive Value
  | null
  | intV (n : Int)
  | strV (s : String)
  | dtV (d : Nat)
deriving DecidableEq

/-- Timestamps, as used for watermark columns. -/
abbrev Datetime := Nat

/-- Model of Python `datetime.min`: the beginning-of-time sentinel. -/
def datetimeMin : Datetime := 0

/-- A table row: an association list from column name to value
(the shape `polars.DataFrame.to_dicts` produces). -/
abbrev Row := List (String × Value)

/-- Value of column `c` in row `r`; SQL NULL when the column is absent. -/
def getVal : Row → String → Value
  | [], _ => Value.null
  | e :: r, c => if e.1 = c then e.2 else getVal r c

/-- Whether row `r` carries column `c` at all (dict-key presence in Python). -/
def hasCol : Row → String → Bool
  | [], _ => false
  | e :: r, c => e.1 == c || hasCol r c

/-- A database table: its column names and its rows. -/
structure Table where
  cols : List String
  rows : List Row
deriving DecidableEq

/-- The state of one relational store: tables keyed by (schema, table name). -/
abbrev Database := List ((String × String) × Table)

/-- Look up the table at key (s, t). -/
def lookupTable : Database → String → String → Option Table
  | [], _, _ => none
  | e :: rest, s, t => if e.1 = (s, t) then some e.2 else lookupTable rest s t

/-- Replace (first occurrence) or append the table at key (s, t). -/
def setTable : Database → String → String → Table → Database
  | [], s, t, tbl => [((s, t), tbl)]
  | e :: rest, s, t, tbl =>
    if e.1 = (s, t) then ((s, t), tbl) :: rest else e :: setTable rest s t tbl

/-- Model of a `polars.DataFrame`: ordered column names plus rows as dicts. -/
structure DataFrame where
  columns : List String
  data : List Row
deriving DecidableEq

/-- `UpsertResult` from `upsert_data.py`. -/
structure UpsertResult where
  rows_inserted : Nat
  rows_updated : Nat
deriving DecidableEq

/-- The Python exceptions the modelled code can raise.  `upsertError` is
modelled from the spec: the spec posits an `UpsertError` wrapper class for
failures inside the upsert engine, but no such class exists in the source;
the constructor exists so that the spec's claim about it can be stated. -/
inductive PyError
  | tableNotFound (s t : String)
  | columnError
  | bindError
  | sqlSyntaxError
  | mergeMultipleMatch
  | fileNotFound
  | jsonDecodeError
  | attrError
  | keyError (k : String)
  | typeError
  | upsertError (cause : PyError)
deriving DecidableEq

/-- SQL equality as used by the MERGE `ON` equi-join: NULL compares false
with everything (including NULL). -/
def sqlValEq : Value → Value → Bool
  | Value.null, _ => false
  | _, Value.null => false
  | v, w => decide (v = w)

/-- The MERGE join condition `target.k1 = source.k1 AND ...` between a
target row and a staging row. -/
def keysMatch (keys : List String) (a b : Row) : Bool :=
  keys.all (fun k => sqlValEq (getVal a k) (getVal b k))

/-- The literal tuple of key-column values of a row. -/
def keyTuple (keys : List String) (r : Row) : List Value :=
  keys.map (fun k => getVal r k)

/-- The join key of a row: its key tuple when every key value is non-NULL,
`none` otherwise (a row with a NULL key matches nothing in the equi-join). -/
def keyOf (keys : List String) (r : Row) : Option (List Value) :=
  if ∀ k ∈ keys, getVal r k ≠ Value.null then some (keyTuple keys r) else none

/-- Row produced by `INSERT (cols) VALUES (...)` into a table with columns
`tcols`: listed columns take the source value, unlisted columns get NULL. -/
def projectRow (tcols cols : List String) (r : Row) : Row :=
  tcols.map (fun c => (c, if c ∈ cols then getVal r c else Value.null))

/-- Effect of the MERGE `UPDATE SET target.c = source.c` branch on a matched
target row: every non-key column among `cols` is overwritten from `s`. -/
def updateRow (keys cols : List String) (t s : Row) : Row :=
  t.map (fun e => if e.1 ∈ cols ∧ e.1 ∉ keys then (e.1, getVal s e.1) else e)

/-- Target rows after the MERGE update branch: each target row matched by a
staging row is updated from its (unique) matching staging row. -/
def mergeUpdatedRows (keys cols : List String) (tgt stg : List Row) : List Row :=
  tgt.map (fun t =>
    match stg.find? (fun s => keysMatch keys t s) with
    | some s => updateRow keys cols t s
    | none => t)

/-- Staging rows taken by the MERGE `WHEN NOT MATCHED BY TARGET` branch. -/
def mergeInsertedSrc (keys : List String) (tgt stg : List Row) : List Row :=
  stg.filter (fun s => !(tgt.any (fun t => keysMatch keys t s)))

/-- Number of target rows updated by the MERGE (each matched target row
fires the `WHEN MATCHED` branch once). -/
def mergeUpdatedCount (keys : List String) (tgt stg : List Row) : Nat :=
  tgt.countP (fun t => stg.any (fun s => keysMatch keys t s))

/-- SQL Server MERGE errors out when one target row is matched by more than
one source row ("attempted to UPDATE the same row more than once"). -/
def mergeHasMultiMatch (keys : List String) (tgt stg : List Row) : Bool :=
  tgt.any (fun t => decide (2 ≤ stg.countP (fun s => keysMatch keys t s)))

/-- The SQL statements `upsert_data.py` builds, abstracted from their query
text: the interpolated identifiers and bound parameters are carried as data. -/
inductive Stmt
  | createStagingIfAbsent (ts tt ss st : String)
  | truncateTable (s t : String)
  | insertRows (s t : String) (cols : List String) (data : List Row)
  | mergeStmt (ts tt ss st : String) (keys cols : List String)

/-- A SQLAlchemy engine, duck-typed exactly as the Python code uses it: it
executes a statement against a database state and yields the new state plus
the statement's result rows (for the merge batch, pairs
`(RowsInserted, RowsUpdated)`). -/
structure Engine where
  exec : Stmt → Database → Except PyError (Database × List (Nat × Nat))

/-- Semantics of the four statements against a SQL Server target store.

The MERGE query text built at `upsert_data.py` lines 101-117 is invalid
T-SQL on three independent counts: it has two `WHEN MATCHED` clauses both
with UPDATE actions and the first without an `AND` condition, it assigns a
variable inside a MERGE UPDATE action (`UPDATE SET @updated += 1`), and it
writes `OUTPUT $action INTO @inserted` where `INTO` requires a table, not a
scalar `INT`.  A real SQL Server therefore rejects the statement at compile
time on every invocation, so the program never reaches `trans.commit()` or
returns counts.  The `mergeStmt` success case below is an idealized
semantics recording the statement's documented intent (one result row
carrying the insert-branch and update-branch row counts); theorems that
hold for every engine, or only concern error and rollback paths, do not
depend on this idealization. -/
def sqlExec : Stmt → Database → Except PyError (Database × List (Nat × Nat))
  | Stmt.createStagingIfAbsent ts tt ss st, db =>
    match lookupTable db ss st with
    | some _ => Except.ok (db, [])
    | none =>
      match lookupTable db ts tt with
      | none => Except.error (PyError.tableNotFound ts tt)
      | some tbl => Except.ok (setTable db ss st ⟨tbl.cols, []⟩, [])
  | Stmt.truncateTable s t, db =>
    match lookupTable db s t with
    | none => Except.error (PyError.tableNotFound s t)
    | some tbl => Except.ok (setTable db s t ⟨tbl.cols, []⟩, [])
  | Stmt.insertRows s t cols data, db =>
    match lookupTable db s t with
    | none => Except.error (PyError.tableNotFound s t)
    | some tbl =>
      if data.isEmpty then Except.ok (db, [])
      else if cols.isEmpty then Except.error PyError.sqlSyntaxError
      else if !(cols.all (fun c => decide (c ∈ tbl.cols))) then Except.error PyError.columnError
      else if !(data.all (fun r => cols.all (fun c => hasCol r c))) then Except.error PyError.bindError
      else Except.ok
        (setTable db s t ⟨tbl.cols, tbl.rows ++ data.map (projectRow tbl.cols cols)⟩, [])
  | Stmt.mergeStmt ts tt ss st keys cols, db =>
    match lookupTable db ts tt with
    | none => Except.error (PyError.tableNotFound ts tt)
    | some tgt =>
      match lookupTable db ss st with
      | none => Except.error (PyError.tableNotFound ss st)
      | some stg =>
        if keys.isEmpty then Except.error PyError.sqlSyntaxError
        else if (cols.filter (fun c => decide (c ∉ keys))).isEmpty then
          Except.error PyError.sqlSyntaxError
        else if !((keys ++ cols).all (fun c => decide (c ∈ tgt.cols) && decide (c ∈ stg.cols))) then
          Except.error PyError.columnError
        else if mergeHasMultiMatch keys tgt.rows stg.rows then
          Except.error PyError.mergeMultipleMatch
        else
          Except.ok
            (setTable db ts tt
              ⟨tgt.cols,
                mergeUpdatedRows keys cols tgt.rows stg.rows ++
                  (mergeInsertedSrc keys tgt.rows stg.rows).map (projectRow tgt.cols cols)⟩,
              [((mergeInsertedSrc keys tgt.rows stg.rows).length,
                mergeUpdatedCount keys tgt.rows stg.rows)])

/-- The engine of the modelled SQL Server target store. -/
def sqlEngine : Engine := ⟨sqlExec⟩

/-- `create_staging_table_if_not_exists` from `upsert_data.py`: runs the
guarded `SELECT TOP 0 * INTO staging.<name>` batch on its own connection,
outside the upsert transaction. -/
def create_staging_table_if_not_exists (engine : Engine) (db : Database)
    (target_schema target_table staging_schema staging_table : String) :
    Except PyError Database :=
  match engine.exec
      (Stmt.createStagingIfAbsent target_schema target_table staging_schema staging_table) db with
  | Except.error e => Except.error e
  | Except.ok p => Except.ok p.1

/-- The result-reading loop of `upsert_data`: `rows_inserted`/`rows_updated`
start at 0 and are overwritten by each row of the merge result. -/
def readMergeCounts (rows : List (Nat × Nat)) : Nat × Nat :=
  rows.foldl (fun _ r => r) (0, 0)

/-- `upsert_data` from `upsert_data.py`.  The staging table is ensured
outside the transaction; truncate, bulk insert and merge run inside one
transaction; on any failure the transaction is rolled back (the state
reverts to the post-ensure snapshot `db0`) and the exception is re-raised
unchanged (`raise e`).  On success the merge result rows are folded into the
two counters and the pair is returned as `UpsertResult`. -/
def upsert_data (engine : Engine) (db : Database) (dataframe : DataFrame)
    (schema_name table_name : String) (key_columns : List String) :
    Database × Except PyError UpsertResult :=
  let data := dataframe.data
  let columns := dataframe.columns
  let staging_table_full_name := "[" ++ schema_name ++ "_" ++ table_name ++ "]"
  match create_staging_table_if_not_exists engine db schema_name table_name
      "staging" staging_table_full_name with
  | Except.error e => (db, Except.error e)
  | Except.ok db0 =>
    match engine.exec (Stmt.truncateTable "staging" staging_table_full_name) db0 with
    | Except.error e => (db0, Except.error e)
    | Except.ok p1 =>
      match engine.exec (Stmt.insertRows "staging" staging_table_full_name columns data) p1.1 with
      | Except.error e => (db0, Except.error e)
      | Except.ok p2 =>
        match engine.exec
            (Stmt.mergeStmt schema_name table_name "staging" staging_table_full_name
              key_columns columns) p2.1 with
        | Except.error e => (db0, Except.error e)
        | Except.ok p3 =>
          let c := readMergeCounts p3.2
          (p3.1, Except.ok ⟨c.1, c.2⟩)

/-- SQL `>` between a watermark column value and a datetime parameter:
true only for a non-NULL datetime strictly greater than the parameter. -/
def valueGtDt : Value → Datetime → Bool
  | Value.dtV d, w => decide (w < d)
  | _, _ => false

/-- `get_new_data` from `get_new_data.py`: `SELECT * FROM s.t WHERE
last_modified_column > :last_run_datetime`, materialised as a DataFrame.
`pl.DataFrame(rows)` infers its columns from the returned dicts, so a
result with no rows yields a DataFrame with no columns. -/
def get_new_data (db : Database) (schema_name table_name last_modified_column : String)
    (last_run_datetime : Datetime) : Except PyError DataFrame :=
  match lookupTable db schema_name table_name with
  | none => Except.error (PyError.tableNotFound schema_name table_name)
  | some tbl =>
    if last_modified_column ∈ tbl.cols then
      Except.ok
        ⟨if (tbl.rows.filter
              (fun r => valueGtDt (getVal r last_modified_column) last_run_datetime)).isEmpty
          then [] else tbl.cols,
         tbl.rows.filter (fun r => valueGtDt (getVal r last_modified_column) last_run_datetime)⟩
    else Except.error PyError.columnError

/-- Datetimes recorded in the `last_run_datetime` column (NULLs ignored,
as SQL `MAX` ignores them). -/
def recordedRuns (rows : List Row) : List Datetime :=
  rows.filterMap (fun r =>
    match getVal r "last_run_datetime" with
    | Value.dtV d => some d
    | _ => none)

/-- SQL `MAX` over a list of datetimes: NULL (`none`) on the empty list. -/
def maxRun : List Datetime → Option Datetime
  | [] => none
  | d :: ds =>
    match maxRun ds with
    | none => some d
    | some m => some (max d m)

/-- `get_last_run_datetime` from `process_tables.py`: reads
`MAX(last_run_datetime)` from the given table and returns the value of the
single aggregate row — `none` (Python `None`) when no run is recorded. -/
def get_last_run_datetime (db : Database) (schema_name table_name : String) :
    Except PyError (Option Datetime) :=
  match lookupTable db schema_name table_name with
  | none => Except.error (PyError.tableNotFound schema_name table_name)
  | some tbl =>
    if "last_run_datetime" ∈ tbl.cols then Except.ok (maxRun (recordedRuns tbl.rows))
    else Except.error PyError.columnError

/-- JSON values, for the configuration file. -/
inductive Json
  | jnull
  | jbool (b : Bool)
  | jnum (n : Int)
  | jstr (s : String)
  | jarr (xs : List Json)
  | jobj (kvs : List (String × Json))

/-- Lookup in a JSON object (Python `dict.get`). -/
def jsonLookup : List (String × Json) → String → Option Json
  | [], _ => none
  | e :: r, k => if e.1 = k then some e.2 else jsonLookup r k

/-- The three states of the configuration file as `open` + `json.load`
observe it: absent (`FileNotFoundError`), unparsable (`JSONDecodeError`),
or parsed JSON content. -/
inductive ConfigFile
  | missing
  | malformed
  | content (j : Json)

/-- `load_table_list_from_json` from `process_tables.py`: opens and parses
the file, then returns `config.get("tables", [])` — the raw JSON value with
no per-descriptor validation.  A non-object top level raises
(`AttributeError` on `.get`). -/
def load_table_list_from_json : ConfigFile → Except PyError Json
  | ConfigFile.missing => Except.error PyError.fileNotFound
  | ConfigFile.malformed => Except.error PyError.jsonDecodeError
  | ConfigFile.content j =>
    match j with
    | Json.jobj kvs => Except.ok ((jsonLookup kvs "tables").getD (Json.jarr []))
    | _ => Except.error PyError.attrError

/-- Python string extraction from a JSON value. -/
def asString : Json → Except PyError String
  | Json.jstr s => Except.ok s
  | _ => Except.error PyError.typeError

/-- Python list-of-strings extraction from a JSON value. -/
def asStringList : Json → Except PyError (List String)
  | Json.jarr xs => xs.mapM asString
  | _ => Except.error PyError.typeError

/-- `table_info[k]`: Python dict indexing, `KeyError` when absent. -/
def dictGet (kvs : List (String × Json)) (k : String) : Except PyError Json :=
  match jsonLookup kvs k with
  | some v => Except.ok v
  | none => Except.error (PyError.keyError k)

/-- Lines 77–82 of `process_tables.py`: read the last-run watermark and
replace a `None` result by the `datetime.min` sentinel. -/
def last_run_or_min (db : Database) (qs qt : String) : Except PyError Datetime :=
  match get_last_run_datetime db qs qt with
  | Except.error e => Except.error e
  | Except.ok o => Except.ok (o.getD datetimeMin)

/-- One iteration of the `process_tables` loop: extract the descriptor's
fields (KeyError on a missing field), read the watermark with the sentinel
substitution, fetch changes, and upsert them.  The source calls the
imported modules `get_new_data` / `upsert_data` by their module name;
modelled as calling the functions of those names. -/
def process_one (source_db target_db : Database) (table_info : Json) :
    Except PyError Database :=
  match table_info with
  | Json.jobj kvs => do
    let sj ← dictGet kvs "schema"
    let schema_name ← asString sj
    let nj ← dictGet kvs "name"
    let table_name ← asString nj
    let kj ← dictGet kvs "key_columns"
    let key_columns ← asStringList kj
    let mj ← dictGet kvs "last_modified_column"
    let last_modified_column ← asString mj
    let quoted_schema_name := "[" ++ schema_name ++ "]"
    let quoted_table_name := "[" ++ table_name ++ "]"
    let last_run_datetime ← last_run_or_min target_db quoted_schema_name quoted_table_name
    let new_data ← get_new_data source_db quoted_schema_name quoted_table_name
      last_modified_column last_run_datetime
    let p := upsert_data sqlEngine target_db new_data schema_name table_name key_columns
    match p.2 with
    | Except.error e => Except.error e
    | Except.ok _ => Except.ok p.1
  | _ => Except.error PyError.typeError

/-- `process_tables` from `process_tables.py`: load the table list and
process each configured table in order, sequentially. -/
def process_tables (source_db target_db : Database) (json_file : ConfigFile) :
    Except PyError Database :=
  match load_table_list_from_json json_file with
  | Except.error e => Except.error e
  | Except.ok tables =>
    match tables with
    | Json.jarr ts => ts.foldlM (fun db ti => process_one source_db db ti) target_db
    | _ => Except.error PyError.typeError

/-- Whether an error is the spec's `UpsertError` wrapper. -/
def isUpsertErrorWrapped : PyError → Bool
  | PyError.upsertError _ => true
  | _ => false

/-- Staging-table precondition used by several theorems: the staging table
either does not exist yet, or exists with the target table's column shape
(the shape `create_staging_table_if_not_exists` gives it). -/
def stagingCompatible (db : Database) (st : String) (tcols : List String) : Prop :=
  lookupTable db "staging" st = none ∨
    ∃ rs, lookupTable db "staging" st = some ⟨tcols, rs⟩

/-- The staging rows a DataFrame bulk-loads into a staging table shaped
like `tbl`. -/
def stagedRows (tbl : Table) (df : DataFrame) : List Row :=
  df.data.map (projectRow tbl.cols df.columns)

/-- The staging table name `upsert_data` builds. -/
def stagingNameOf (s t : String) : String := "[" ++ s ++ "_" ++ t ++ "]"

/-- A degenerate engine whose statements all succeed with no result rows;
used to exercise `upsert_data` over the engine interface. -/
def okEngine : Engine := ⟨fun _ db => Except.ok (db, [])⟩

deriving instance DecidableEq for Except

/-! ### Basic lemmas about the database state -/

theorem lookup_setTable_self (db : Database) (s t : String) (v : Table) :
    lookupTable (setTable db s t v) s t = some v := by
  induction db with
  | nil => simp [setTable, lookupTable]
  | cons e rest ih =>
    by_cases h : e.1 = (s, t) <;> simp [setTable, lookupTable, h, ih]

theorem lookup_setTable_ne (db : Database) (s t s' t' : String) (v : Table)
    (h : (s', t') ≠ (s, t)) :
    lookupTable (setTable db s t v) s' t' = lookupTable db s' t' := by
  have hst : ¬(s = s' ∧ t = t') := fun hc => h (by rw [hc.1, hc.2])
  have hst' : ¬(s' = s ∧ t' = t) := fun hc => h (by rw [hc.1, hc.2])
  induction db with
  | nil => simp [setTable, lookupTable, hst]
  | cons e rest ih =>
    by_cases he : e.1 = (s, t)
    · have he' : e.1 ≠ (s', t') := by
        rw [he]; exact fun hc => h hc.symm
      simp [setTable, lookupTable, he, he', hst]
    · by_cases he' : e.1 = (s', t') <;>
        simp [setTable, lookupTable, he, he', hst, hst', ih]

theorem setTable_cons (e : (String × String) × Table) (rest : Database) (s t : String)
    (tbl : Table) :
    setTable (e :: rest) s t tbl =
      if e.1 = (s, t) then ((s, t), tbl) :: rest else e :: setTable rest s t tbl := rfl

theorem setTable_nil (s t : String) (tbl : Table) :
    setTable [] s t tbl = [((s, t), tbl)] := rfl

theorem setTable_setTable_self (db : Database) (s t : String) (v w : Table) :
    setTable (setTable db s t v) s t w = setTable db s t w := by
  induction db with
  | nil => simp [setTable_nil, setTable_cons]
  | cons e rest ih =>
    by_cases h : e.1 = (s, t)
    · rw [setTable_cons, if_pos h, setTable_cons]
      simp [setTable_cons, h]
    · rw [setTable_cons, if_neg h, setTable_cons, if_neg h, ih, setTable_cons, if_neg h]

theorem setTable_of_lookup_eq (db : Database) (s t : String) (v : Table)
    (h : lookupTable db s t = some v) : setTable db s t v = db := by
  induction db with
  | nil => simp [lookupTable] at h
  | cons e rest ih =>
    obtain ⟨e1, e2⟩ := e
    by_cases he : e1 = (s, t)
    · simp [lookupTable, he] at h
      rw [setTable_cons, if_pos he, he, h]
    · simp only [lookupTable, he, if_neg, if_false] at h
      rw [setTable_cons, if_neg he, ih h]

/-- The target table key never coincides with the staging table key the
engine builds (`staging.[<schema>_<table>]`): a table name can not equal
the longer bracketed string built from itself. -/
theorem targetKey_ne_stagingKey (s t : String) :
    (s, t) ≠ ("staging", "[" ++ s ++ "_" ++ t ++ "]") := by
  intro h
  have h2 : t = "[" ++ s ++ "_" ++ t ++ "]" := congrArg Prod.snd h
  have h3 := congrArg String.length h2
  simp [String.length_append, show ("[" : String).length = 1 from rfl,
    show ("_" : String).length = 1 from rfl, show ("]" : String).length = 1 from rfl] at h3
  omega

/-! ### Lemmas about rows, SQL equality and join keys -/

theorem getVal_eq_null_of_hasCol_false (r : Row) (c : String)
    (h : hasCol r c = false) : getVal r c = Value.null := by
  induction r with
  | nil => simp [getVal]
  | cons e r ih =>
    simp [hasCol, Bool.or_eq_false_iff] at h
    simp [getVal, h.1, ih h.2]

theorem sqlValEq_iff (v w : Value) :
    sqlValEq v w = true ↔ v ≠ Value.null ∧ w ≠ Value.null ∧ v = w := by
  cases v <;> cases w <;> simp [sqlValEq]

theorem keyOf_eq_some_iff (keys : List String) (r : Row) (v : List Value) :
    keyOf keys r = some v ↔
      (∀ k ∈ keys, getVal r k ≠ Value.null) ∧ v = keyTuple keys r := by
  unfold keyOf
  by_cases h : ∀ k ∈ keys, getVal r k ≠ Value.null <;> simp [h]
  exact fun _ => eq_comm

theorem keyOf_eq_none_iff (keys : List String) (r : Row) :
    keyOf keys r = none ↔ ¬ ∀ k ∈ keys, getVal r k ≠ Value.null := by
  unfold keyOf
  by_cases h : ∀ k ∈ keys, getVal r k ≠ Value.null <;> simp [h]

theorem keysMatch_true_iff (keys : List String) (a b : Row) :
    keysMatch keys a b = true ↔
      (∀ k ∈ keys, getVal a k ≠ Value.null) ∧
        (∀ k ∈ keys, getVal b k ≠ Value.null) ∧ keyTuple keys a = keyTuple keys b := by
  unfold keysMatch keyTuple
  rw [List.all_eq_true]
  constructor
  · intro h
    refine ⟨fun k hk => ((sqlValEq_iff _ _).mp (h k hk)).1,
            fun k hk => ((sqlValEq_iff _ _).mp (h k hk)).2.1,
            List.map_congr_left fun k hk => ((sqlValEq_iff _ _).mp (h k hk)).2.2⟩
  · rintro ⟨ha, hb, heq⟩ k hk
    have : getVal a k = getVal b k := by
      have h1 : keys.map (fun k => getVal a k) = keys.map (fun k => getVal b k) := heq
      exact (List.map_inj_left.mp h1) k hk
    exact (sqlValEq_iff _ _).mpr ⟨ha k hk, hb k hk, this⟩

theorem keysMatch_iff_keyOf (keys : List String) (a b : Row) :
    keysMatch keys a b = true ↔
      ∃ v, keyOf keys a = some v ∧ keyOf keys b = some v := by
  rw [keysMatch_true_iff]
  constructor
  · rintro ⟨ha, hb, heq⟩
    exact ⟨keyTuple keys a, (keyOf_eq_some_iff _ _ _).mpr ⟨ha, rfl⟩,
           (keyOf_eq_some_iff _ _ _).mpr ⟨hb, heq⟩⟩
  · rintro ⟨v, hva, hvb⟩
    obtain ⟨ha, hta⟩ := (keyOf_eq_some_iff _ _ _).mp hva
    obtain ⟨hb, htb⟩ := (keyOf_eq_some_iff _ _ _).mp hvb
    exact ⟨ha, hb, hta ▸ htb⟩

theorem keysMatch_false_of_keyOf_none (keys : List String) (a b : Row)
    (h : keyOf keys a = none) : keysMatch keys a b = false := by
  rw [Bool.eq_false_iff]
  intro hc
  obtain ⟨v, hva, _⟩ := (keysMatch_iff_keyOf keys a b).mp hc
  rw [h] at hva; cases hva

theorem keysMatch_symm (keys : List String) (a b : Row) :
    keysMatch keys a b = keysMatch keys b a := by
  rw [Bool.eq_iff_iff, keysMatch_iff_keyOf, keysMatch_iff_keyOf]
  constructor <;> (rintro ⟨v, h1, h2⟩; exact ⟨v, h2, h1⟩)

theorem keysMatch_congr_left (keys : List String) (a a' b : Row)
    (h : ∀ k ∈ keys, getVal a k = getVal a' k) :
    keysMatch keys a b = keysMatch keys a' b := by
  rw [Bool.eq_iff_iff, keysMatch_true_iff, keysMatch_true_iff]
  constructor
  · rintro ⟨ha, hb, heq⟩
    exact ⟨fun k hk => h k hk ▸ ha k hk, hb,
      (List.map_congr_left fun k hk => (h k hk).symm).trans heq⟩
  · rintro ⟨ha, hb, heq⟩
    exact ⟨fun k hk => (h k hk).symm ▸ ha k hk, hb,
      (List.map_congr_left h).trans heq⟩

theorem keyOf_congr (keys : List String) (a a' : Row)
    (h : ∀ k ∈ keys, getVal a k = getVal a' k) :
    keyOf keys a = keyOf keys a' := by
  unfold keyOf keyTuple
  by_cases hn : ∀ k ∈ keys, getVal a k ≠ Value.null
  · have hn' : ∀ k ∈ keys, getVal a' k ≠ Value.null := fun k hk => h k hk ▸ hn k hk
    rw [if_pos hn, if_pos hn']
    exact congrArg some (List.map_congr_left h)
  · have hn' : ¬ ∀ k ∈ keys, getVal a' k ≠ Value.null := by
      intro hc; exact hn fun k hk => (h k hk).symm ▸ hc k hk
    rw [if_neg hn, if_neg hn']

theorem getVal_cons (e : String × Value) (r : Row) (c : String) :
    getVal (e :: r) c = if e.1 = c then e.2 else getVal r c := rfl

theorem hasCol_cons (e : String × Value) (r : Row) (c : String) :
    hasCol (e :: r) c = (e.1 == c || hasCol r c) := rfl

/-- Value of a column in a row of the shape `l.map (fun x => (x, f x))`. -/
theorem getVal_map_keyfun (l : List String) (f : String → Value) (c : String) :
    getVal (l.map (fun x => (x, f x))) c = if c ∈ l then f c else Value.null := by
  induction l with
  | nil => simp [getVal]
  | cons x xs ih =>
    by_cases hx : x = c
    · subst hx
      simp [getVal_cons]
    · simp [getVal_cons, hx, ih, List.mem_cons, Ne.symm hx]

theorem getVal_projectRow (tcols cols : List String) (r : Row) (c : String) :
    getVal (projectRow tcols cols r) c =
      if c ∈ tcols then (if c ∈ cols then getVal r c else Value.null) else Value.null := by
  unfold projectRow
  exact getVal_map_keyfun tcols (fun x => if x ∈ cols then getVal r x else Value.null) c

theorem getVal_updateRow (keys cols : List String) (t s : Row) (c : String) :
    getVal (updateRow keys cols t s) c =
      if c ∈ cols ∧ c ∉ keys then (if hasCol t c then getVal s c else Value.null)
      else getVal t c := by
  induction t with
  | nil =>
    simp only [updateRow, List.map_nil, hasCol]
    by_cases h : c ∈ cols ∧ c ∉ keys <;> simp [getVal, h]
  | cons e t' ih =>
    simp only [updateRow, List.map_cons]
    simp only [updateRow] at ih
    by_cases hP : e.1 ∈ cols ∧ e.1 ∉ keys
    · rw [if_pos hP]
      by_cases he : e.1 = c
      · subst he
        simp [getVal_cons, hasCol_cons, hP]
      · rw [getVal_cons, if_neg he, ih, getVal_cons, if_neg he, hasCol_cons]
        simp [he]
    · rw [if_neg hP]
      by_cases he : e.1 = c
      · subst he
        simp [getVal_cons, hasCol_cons, hP]
      · rw [getVal_cons, if_neg he, ih, getVal_cons, if_neg he, hasCol_cons]
        simp [he]

theorem getVal_updateRow_key (keys cols : List String) (t s : Row) (k : String)
    (hk : k ∈ keys) : getVal (updateRow keys cols t s) k = getVal t k := by
  rw [getVal_updateRow]
  have : ¬(k ∈ cols ∧ k ∉ keys) := fun hc => hc.2 hk
  rw [if_neg this]

theorem updateRow_updateRow (keys cols : List String) (t s : Row) :
    updateRow keys cols (updateRow keys cols t s) s = updateRow keys cols t s := by
  unfold updateRow
  rw [List.map_map]
  apply List.map_congr_left
  intro e _
  by_cases hP : e.1 ∈ cols ∧ e.1 ∉ keys <;> simp [hP]

theorem updateRow_projectRow_self (keys cols tcols : List String) (r : Row) :
    updateRow keys cols (projectRow tcols cols r) (projectRow tcols cols r) =
      projectRow tcols cols r := by
  unfold updateRow projectRow
  rw [List.map_map]
  apply List.map_congr_left
  intro c hc
  by_cases hP : c ∈ cols ∧ c ∉ keys
  · have hv := getVal_projectRow tcols cols r c
    unfold projectRow at hv
    simp [hP, hv, hc, hP.1]
  · simp [hP]

theorem updateRow_proj_source (keys cols tcols : List String) (t r : Row)
    (hsub : ∀ c ∈ cols, c ∈ tcols) :
    updateRow keys cols t (projectRow tcols cols r) = updateRow keys cols t r := by
  unfold updateRow
  apply List.map_congr_left
  intro e _
  by_cases hP : e.1 ∈ cols ∧ e.1 ∉ keys
  · rw [if_pos hP, if_pos hP, getVal_projectRow, if_pos (hsub e.1 hP.1), if_pos hP.1]
  · rw [if_neg hP, if_neg hP]

theorem keysMatch_congr_right (keys : List String) (a b b' : Row)
    (h : ∀ k ∈ keys, getVal b k = getVal b' k) :
    keysMatch keys a b = keysMatch keys a b' := by
  rw [keysMatch_symm keys a b, keysMatch_symm keys a b']
  exact keysMatch_congr_left keys b b' a h

theorem getVal_projectRow_of_mem (tcols cols : List String) (r : Row) (c : String)
    (h1 : c ∈ tcols) (h2 : c ∈ cols) :
    getVal (projectRow tcols cols r) c = getVal r c := by
  rw [getVal_projectRow, if_pos h1, if_pos h2]

theorem keysMatch_projectRow_right (keys cols tcols : List String) (t r : Row)
    (hk : ∀ k ∈ keys, k ∈ cols) (hk2 : ∀ k ∈ keys, k ∈ tcols) :
    keysMatch keys t (projectRow tcols cols r) = keysMatch keys t r :=
  keysMatch_congr_right keys t _ r fun k hkk =>
    getVal_projectRow_of_mem tcols cols r k (hk2 k hkk) (hk k hkk)

theorem keyOf_projectRow (keys cols tcols : List String) (r : Row)
    (hk : ∀ k ∈ keys, k ∈ cols) (hk2 : ∀ k ∈ keys, k ∈ tcols) :
    keyOf keys (projectRow tcols cols r) = keyOf keys r :=
  keyOf_congr keys _ r fun k hkk =>
    getVal_projectRow_of_mem tcols cols r k (hk2 k hkk) (hk k hkk)

theorem keyOf_projectRow_none (keys cols tcols : List String) (r : Row)
    (k0 : String) (hk0 : k0 ∈ keys) (h : k0 ∉ cols ∨ k0 ∉ tcols) :
    keyOf keys (projectRow tcols cols r) = none := by
  rw [keyOf_eq_none_iff]
  intro hc
  apply hc k0 hk0
  rw [getVal_projectRow]
  rcases h with h | h
  · by_cases ht : k0 ∈ tcols <;> simp [ht, h]
  · rw [if_neg h]

/-! ### Counting lemmas for the merge -/

theorem eq_of_keyOf_nodup {α β : Type} (l : List α) (f : α → Option β)
    (h : (l.filterMap f).Nodup) (a b : α) (ha : a ∈ l) (hb : b ∈ l)
    (v : β) (hfa : f a = some v) (hfb : f b = some v) : a = b := by
  induction l with
  | nil => cases ha
  | cons x xs ih =>
    rw [List.filterMap_cons] at h
    rcases List.mem_cons.mp ha with rfl | ha'
    · rcases List.mem_cons.mp hb with rfl | hb'
      · rfl
      · rw [hfa] at h
        exact absurd (List.mem_filterMap.mpr ⟨b, hb', hfb⟩) (List.nodup_cons.mp h).1
    · rcases List.mem_cons.mp hb with rfl | hb'
      · rw [hfb] at h
        exact absurd (List.mem_filterMap.mpr ⟨a, ha', hfa⟩) (List.nodup_cons.mp h).1
      · cases hx : f x with
        | none => rw [hx] at h; exact ih h ha' hb'
        | some w => rw [hx] at h; exact ih (List.nodup_cons.mp h).2 ha' hb'

theorem countP_match_le_one (keys : List String) (stg : List Row)
    (h : (stg.filterMap (keyOf keys)).Nodup) (t : Row) :
    stg.countP (fun s => keysMatch keys t s) ≤ 1 := by
  induction stg with
  | nil => simp
  | cons s0 stg' ih =>
    rw [List.countP_cons]
    rw [List.filterMap_cons] at h
    by_cases hm : keysMatch keys t s0 = true
    · obtain ⟨v, hvt, hvs⟩ := (keysMatch_iff_keyOf keys t s0).mp hm
      rw [hvs] at h
      have hnd := List.nodup_cons.mp h
      have hzero : stg'.countP (fun s => keysMatch keys t s) = 0 := by
        rw [List.countP_eq_zero]
        intro s' hs' hc
        obtain ⟨w, hwt, hws⟩ := (keysMatch_iff_keyOf keys t s').mp hc
        rw [hvt] at hwt
        injection hwt with hwt
        subst hwt
        exact hnd.1 (List.mem_filterMap.mpr ⟨s', hs', hws⟩)
      simp [hm, hzero]
    · have hmB : keysMatch keys t s0 = false := Bool.eq_false_iff.mpr hm
      cases hx : keyOf keys s0 with
      | none =>
        rw [hx] at h
        simpa [hmB] using ih h
      | some w =>
        rw [hx] at h
        simpa [hmB] using ih (List.nodup_cons.mp h).2

theorem countP_eq_countP_filterMap {α β : Type} (l : List α) (f : α → Option β)
    (p : α → Bool) (q : β → Bool)
    (h : ∀ a ∈ l, p a = ((f a).map q).getD false) :
    l.countP p = (l.filterMap f).countP q := by
  induction l with
  | nil => simp
  | cons x xs ih =>
    rw [List.countP_cons, List.filterMap_cons]
    have hx := h x (List.mem_cons_self x xs)
    have ihh := ih fun a ha => h a (List.mem_cons_of_mem _ ha)
    cases hfx : f x with
    | none =>
      rw [hfx] at hx
      simp only [Option.map_none', Option.getD_none] at hx
      simp [hx, ihh]
    | some b =>
      rw [hfx] at hx
      simp only [Option.map_some', Option.getD_some] at hx
      rw [List.countP_cons, ihh, hx]

theorem countP_mem_comm {α : Type} [DecidableEq α] (T S : List α)
    (hT : T.Nodup) (hS : S.Nodup) :
    T.countP (fun v => decide (v ∈ S)) = S.countP (fun v => decide (v ∈ T)) := by
  rw [List.countP_eq_length_filter, List.countP_eq_length_filter]
  have h1 : (T.filter (fun v => decide (v ∈ S))).length = (T.toFinset ∩ S.toFinset).card := by
    rw [← List.toFinset_card_of_nodup (List.Nodup.filter _ hT)]
    congr 1
    ext a
    simp [List.mem_toFinset, List.mem_filter]
  have h2 : (S.filter (fun v => decide (v ∈ T))).length = (S.toFinset ∩ T.toFinset).card := by
    rw [← List.toFinset_card_of_nodup (List.Nodup.filter _ hS)]
    congr 1
    ext a
    simp [List.mem_toFinset, List.mem_filter]
  rw [h1, h2, Finset.inter_comm]

theorem matched_count_comm (keys : List String) (tgt stg : List Row)
    (hT : (tgt.filterMap (keyOf keys)).Nodup) (hS : (stg.filterMap (keyOf keys)).Nodup) :
    tgt.countP (fun t => stg.any (fun s => keysMatch keys t s)) =
      stg.countP (fun s => tgt.any (fun t => keysMatch keys t s)) := by
  have hbridgeT : tgt.countP (fun t => stg.any (fun s => keysMatch keys t s)) =
      (tgt.filterMap (keyOf keys)).countP
        (fun v => decide (v ∈ stg.filterMap (keyOf keys))) := by
    apply countP_eq_countP_filterMap
    intro t _
    cases hkt : keyOf keys t with
    | none =>
      simp only [Option.map_none', Option.getD_none]
      rw [List.any_eq_false]
      intro s _
      rw [keysMatch_false_of_keyOf_none keys t s hkt]
      simp
    | some v =>
      simp only [Option.map_some', Option.getD_some]
      rw [Bool.eq_iff_iff, List.any_eq_true]
      constructor
      · rintro ⟨s, hs, hm⟩
        obtain ⟨w, hwt, hws⟩ := (keysMatch_iff_keyOf _ _ _).mp hm
        rw [hkt] at hwt
        injection hwt with hwt
        subst hwt
        simp only [decide_eq_true_eq]
        exact List.mem_filterMap.mpr ⟨s, hs, hws⟩
      · intro hv
        simp only [decide_eq_true_eq] at hv
        obtain ⟨s, hs, hks⟩ := List.mem_filterMap.mp hv
        exact ⟨s, hs, (keysMatch_iff_keyOf _ _ _).mpr ⟨v, hkt, hks⟩⟩
  have hbridgeS : stg.countP (fun s => tgt.any (fun t => keysMatch keys t s)) =
      (stg.filterMap (keyOf keys)).countP
        (fun v => decide (v ∈ tgt.filterMap (keyOf keys))) := by
    apply countP_eq_countP_filterMap
    intro s _
    cases hks : keyOf keys s with
    | none =>
      simp only [Option.map_none', Option.getD_none]
      rw [List.any_eq_false]
      intro t _
      rw [keysMatch_symm]
      rw [keysMatch_false_of_keyOf_none keys s t hks]
      simp
    | some v =>
      simp only [Option.map_some', Option.getD_some]
      rw [Bool.eq_iff_iff, List.any_eq_true]
      constructor
      · rintro ⟨t, ht, hm⟩
        obtain ⟨w, hwt, hws⟩ := (keysMatch_iff_keyOf _ _ _).mp hm
        rw [hks] at hws
        injection hws with hws
        subst hws
        simp only [decide_eq_true_eq]
        exact List.mem_filterMap.mpr ⟨t, ht, hwt⟩
      · intro hv
        simp only [decide_eq_true_eq] at hv
        obtain ⟨t, ht, hkt⟩ := List.mem_filterMap.mp hv
        exact ⟨t, ht, (keysMatch_iff_keyOf _ _ _).mpr ⟨v, hkt, hks⟩⟩
  rw [hbridgeT, hbridgeS]
  refine (List.countP_congr ?_).trans ((countP_mem_comm _ _ hT hS).trans (List.countP_congr ?_))
  · intro a _
    simp
  · intro a _
    simp

theorem countP_not_add_countP (l : List Row) (p : Row → Bool) :
    l.countP (fun a => !(p a)) + l.countP p = l.length := by
  induction l with
  | nil => simp
  | cons x xs ih =>
    rw [List.countP_cons, List.countP_cons]
    cases hp : p x <;> simp [hp] <;> omega

/-! ### Inversion lemmas for the SQL statements -/

theorem sqlEngine_exec_eq : sqlEngine.exec = sqlExec := rfl

theorem readMergeCounts_single (i u : Nat) : readMergeCounts [(i, u)] = (i, u) := rfl

theorem readMergeCounts_nil : readMergeCounts [] = (0, 0) := rfl

theorem create_staging_ok_inv (db : Database) (ts tt ss st : String) (db0 : Database)
    (h : create_staging_table_if_not_exists sqlEngine db ts tt ss st = Except.ok db0) :
    (∃ w, lookupTable db ss st = some w ∧ db0 = db) ∨
      (lookupTable db ss st = none ∧
        ∃ tbl, lookupTable db ts tt = some tbl ∧ db0 = setTable db ss st ⟨tbl.cols, []⟩) := by
  unfold create_staging_table_if_not_exists at h
  rw [sqlEngine_exec_eq] at h
  cases hss : lookupTable db ss st with
  | some w =>
    simp only [sqlExec, hss] at h
    simp at h
    exact Or.inl ⟨w, rfl, h.symm⟩
  | none =>
    cases hts : lookupTable db ts tt with
    | none => simp [sqlExec, hss, hts] at h
    | some tbl =>
      simp only [sqlExec, hss, hts] at h
      simp at h
      exact Or.inr ⟨rfl, tbl, rfl, h.symm⟩

theorem truncate_exec_ok_inv (db : Database) (s t : String) (p : Database × List (Nat × Nat))
    (h : sqlExec (Stmt.truncateTable s t) db = Except.ok p) :
    ∃ tbl, lookupTable db s t = some tbl ∧ p = (setTable db s t ⟨tbl.cols, []⟩, []) := by
  cases hl : lookupTable db s t with
  | none => simp [sqlExec, hl] at h
  | some tbl =>
    simp only [sqlExec, hl] at h
    simp at h
    exact ⟨tbl, rfl, h.symm⟩

theorem insert_exec_ok_inv (db : Database) (s t : String) (cols : List String)
    (data : List Row) (p : Database × List (Nat × Nat))
    (h : sqlExec (Stmt.insertRows s t cols data) db = Except.ok p) :
    ∃ tbl, lookupTable db s t = some tbl ∧
      ((data = [] ∧ p = (db, [])) ∨
        (data ≠ [] ∧ (∀ c ∈ cols, c ∈ tbl.cols) ∧
          (∀ r ∈ data, ∀ c ∈ cols, hasCol r c = true) ∧
          p = (setTable db s t ⟨tbl.cols, tbl.rows ++ data.map (projectRow tbl.cols cols)⟩,
               []))) := by
  cases hl : lookupTable db s t with
  | none => simp [sqlExec, hl] at h
  | some tbl =>
    refine ⟨tbl, rfl, ?_⟩
    simp only [sqlExec, hl] at h
    by_cases hd : data.isEmpty
    · rw [if_pos hd] at h
      simp at h
      exact Or.inl ⟨List.isEmpty_iff.mp hd, h.symm⟩
    · rw [if_neg hd] at h
      by_cases hc : cols.isEmpty
      · rw [if_pos hc] at h; cases h
      · rw [if_neg hc] at h
        by_cases h2 : cols.all (fun c => decide (c ∈ tbl.cols)) = true
        · rw [h2] at h
          simp only [Bool.not_true] at h
          rw [if_neg (by simp)] at h
          by_cases h3 : data.all (fun r => cols.all (fun c => hasCol r c)) = true
          · rw [h3] at h
            simp only [Bool.not_true] at h
            rw [if_neg (by simp)] at h
            simp at h
            refine Or.inr ⟨fun hd' => hd (by rw [hd']; rfl), ?_, ?_, h.symm⟩
            · intro c hcc
              have := (List.all_eq_true.mp h2) c hcc
              simpa using this
            · intro r hr c hcc
              exact (List.all_eq_true.mp ((List.all_eq_true.mp h3) r hr)) c hcc
          · have h3f : data.all (fun r => cols.all (fun c => hasCol r c)) = false :=
              Bool.eq_false_iff.mpr h3
            rw [h3f] at h
            simp only [Bool.not_false] at h
            simp at h
        · have h2f : cols.all (fun c => decide (c ∈ tbl.cols)) = false :=
            Bool.eq_false_iff.mpr h2
          rw [h2f] at h
          simp only [Bool.not_false] at h
          simp at h

theorem merge_exec_ok_inv (db : Database) (ts tt ss st : String) (ks cols : List String)
    (p : Database × List (Nat × Nat))
    (h : sqlExec (Stmt.mergeStmt ts tt ss st ks cols) db = Except.ok p) :
    ∃ tgt stg, lookupTable db ts tt = some tgt ∧ lookupTable db ss st = some stg ∧
      ks ≠ [] ∧ cols.filter (fun c => decide (c ∉ ks)) ≠ [] ∧
      (∀ c ∈ ks ++ cols, c ∈ tgt.cols ∧ c ∈ stg.cols) ∧
      mergeHasMultiMatch ks tgt.rows stg.rows = false ∧
      p = (setTable db ts tt
            ⟨tgt.cols,
              mergeUpdatedRows ks cols tgt.rows stg.rows ++
                (mergeInsertedSrc ks tgt.rows stg.rows).map (projectRow tgt.cols cols)⟩,
           [((mergeInsertedSrc ks tgt.rows stg.rows).length,
             mergeUpdatedCount ks tgt.rows stg.rows)]) := by
  cases hts : lookupTable db ts tt with
  | none => simp [sqlExec, hts] at h
  | some tgt =>
    cases hss : lookupTable db ss st with
    | none => simp [sqlExec, hts, hss] at h
    | some stg =>
      refine ⟨tgt, stg, rfl, rfl, ?_⟩
      simp only [sqlExec, hts, hss] at h
      by_cases m1 : ks.isEmpty
      · rw [if_pos m1] at h; cases h
      · rw [if_neg m1] at h
        by_cases m2 : (cols.filter (fun c => decide (c ∉ ks))).isEmpty
        · rw [if_pos m2] at h; cases h
        · rw [if_neg m2] at h
          by_cases m3 : (ks ++ cols).all
              (fun c => decide (c ∈ tgt.cols) && decide (c ∈ stg.cols)) = true
          · rw [m3] at h
            simp only [Bool.not_true] at h
            rw [if_neg (by simp)] at h
            by_cases m4 : mergeHasMultiMatch ks tgt.rows stg.rows = true
            · rw [if_pos m4] at h; cases h
            · have m4f : mergeHasMultiMatch ks tgt.rows stg.rows = false :=
                Bool.eq_false_iff.mpr m4
              rw [m4f] at h
              rw [if_neg (by simp)] at h
              simp at h
              refine ⟨fun hk => m1 (by rw [hk]; rfl),
                      fun hk => m2 (by rw [hk]; rfl), ?_, m4f, h.symm⟩
              intro c hcc
              have := (List.all_eq_true.mp m3) c hcc
              simpa using this
          · have m3f : (ks ++ cols).all
                (fun c => decide (c ∈ tgt.cols) && decide (c ∈ stg.cols)) = false :=
              Bool.eq_false_iff.mpr m3
            rw [m3f] at h
            simp only [Bool.not_false] at h
            simp at h



theorem upsert_merge_final
    (db db0 db' : Database) (df : DataFrame) (s t : String) (ks : List String)
    (tbl : Table) (res : UpsertResult)
    (htgt : lookupTable db s t = some tbl)
    (hne : ((s, t) : String × String) ≠ ("staging", "[" ++ s ++ "_" ++ t ++ "]"))
    (h : (match sqlEngine.exec
            (Stmt.mergeStmt s t "staging" ("[" ++ s ++ "_" ++ t ++ "]") ks df.columns)
            (setTable db "staging" ("[" ++ s ++ "_" ++ t ++ "]")
              ⟨tbl.cols, List.map (projectRow tbl.cols df.columns) df.data⟩) with
          | Except.error e => (db0, Except.error e)
          | Except.ok p3 =>
            (p3.1, Except.ok
              (⟨(readMergeCounts p3.2).1, (readMergeCounts p3.2).2⟩ : UpsertResult)))
        = (db', Except.ok res)) :
    db' = setTable
            (setTable db "staging" ("[" ++ s ++ "_" ++ t ++ "]")
              ⟨tbl.cols, List.map (projectRow tbl.cols df.columns) df.data⟩) s t
            ⟨tbl.cols,
              mergeUpdatedRows ks df.columns tbl.rows
                  (List.map (projectRow tbl.cols df.columns) df.data) ++
                (mergeInsertedSrc ks tbl.rows
                    (List.map (projectRow tbl.cols df.columns) df.data)).map
                  (projectRow tbl.cols df.columns)⟩ ∧
      res = ⟨(mergeInsertedSrc ks tbl.rows
                (List.map (projectRow tbl.cols df.columns) df.data)).length,
             mergeUpdatedCount ks tbl.rows
               (List.map (projectRow tbl.cols df.columns) df.data)⟩ ∧
      ks ≠ [] ∧
      df.columns.filter (fun c => decide (c ∉ ks)) ≠ [] ∧
      (∀ k ∈ ks ++ df.columns, k ∈ tbl.cols) ∧
      mergeHasMultiMatch ks tbl.rows
        (List.map (projectRow tbl.cols df.columns) df.data) = false := by
  cases hm : sqlEngine.exec
      (Stmt.mergeStmt s t "staging" ("[" ++ s ++ "_" ++ t ++ "]") ks df.columns)
      (setTable db "staging" ("[" ++ s ++ "_" ++ t ++ "]")
        ⟨tbl.cols, List.map (projectRow tbl.cols df.columns) df.data⟩) with
  | error e => simp only [hm] at h; simp at h
  | ok p3 =>
    simp only [hm] at h
    rw [sqlEngine_exec_eq] at hm
    obtain ⟨tgt2, stg2, hts2, hss2, hk1, hk2, hk3, hk4, hp3⟩ :=
      merge_exec_ok_inv _ _ _ _ _ _ _ _ hm
    have htg2 : tgt2 = tbl := by
      rw [lookup_setTable_ne db "staging" ("[" ++ s ++ "_" ++ t ++ "]") s t _ hne, htgt]
        at hts2
      injection hts2 with h2
      exact h2.symm
    have hst2 : stg2 =
        ⟨tbl.cols, List.map (projectRow tbl.cols df.columns) df.data⟩ := by
      rw [lookup_setTable_self] at hss2
      injection hss2 with h2
      exact h2.symm
    rw [htg2, hst2] at hk3 hk4 hp3
    simp only at hk3 hk4 hp3
    rw [hp3] at h
    simp only [readMergeCounts_single] at h
    rw [Prod.mk.injEq] at h
    obtain ⟨hdb, hres⟩ := h
    rw [Except.ok.injEq] at hres
    refine ⟨hdb.symm, hres.symm, hk1, hk2, ?_, hk4⟩
    intro k hk
    exact (hk3 k hk).1

theorem upsert_sql_ok_char
    (db : Database) (df : DataFrame) (s t : String) (ks : List String)
    (tbl : Table) (db' : Database) (res : UpsertResult)
    (htgt : lookupTable db s t = some tbl)
    (hstg : stagingCompatible db (stagingNameOf s t) tbl.cols)
    (h : upsert_data sqlEngine db df s t ks = (db', Except.ok res)) :
    db' = setTable
            (setTable db "staging" (stagingNameOf s t) ⟨tbl.cols, stagedRows tbl df⟩) s t
            ⟨tbl.cols,
              mergeUpdatedRows ks df.columns tbl.rows (stagedRows tbl df) ++
                (mergeInsertedSrc ks tbl.rows (stagedRows tbl df)).map
                  (projectRow tbl.cols df.columns)⟩ ∧
      res = ⟨(mergeInsertedSrc ks tbl.rows (stagedRows tbl df)).length,
             mergeUpdatedCount ks tbl.rows (stagedRows tbl df)⟩ ∧
      ks ≠ [] ∧
      df.columns.filter (fun c => decide (c ∉ ks)) ≠ [] ∧
      (∀ k ∈ ks ++ df.columns, k ∈ tbl.cols) ∧
      mergeHasMultiMatch ks tbl.rows (stagedRows tbl df) = false ∧
      (df.data = [] ∨ ((∀ c ∈ df.columns, c ∈ tbl.cols) ∧
          ∀ r ∈ df.data, ∀ c ∈ df.columns, hasCol r c = true)) := by
  unfold stagingNameOf stagedRows
  unfold stagingNameOf at hstg
  have hne : ((s, t) : String × String) ≠ ("staging", "[" ++ s ++ "_" ++ t ++ "]") :=
    targetKey_ne_stagingKey s t
  simp only [upsert_data] at h
  cases h1 : create_staging_table_if_not_exists sqlEngine db s t "staging"
      ("[" ++ s ++ "_" ++ t ++ "]") with
  | error e => rw [h1] at h; simp at h
  | ok db0 =>
    simp only [h1] at h
    obtain ⟨rs0, h_st0, h_tg0, hcollapse⟩ :
        ∃ rs0, lookupTable db0 "staging" ("[" ++ s ++ "_" ++ t ++ "]") =
            some ⟨tbl.cols, rs0⟩ ∧
          lookupTable db0 s t = some tbl ∧
          ∀ X, setTable db0 "staging" ("[" ++ s ++ "_" ++ t ++ "]") X
              = setTable db "staging" ("[" ++ s ++ "_" ++ t ++ "]") X := by
      rcases create_staging_ok_inv db s t "staging" _ db0 h1 with
        ⟨w, hw, rfl⟩ | ⟨habs, tbl2, htbl2, rfl⟩
      · rcases hstg with hstg0 | ⟨rs, hstg0⟩
        · rw [hstg0] at hw; cases hw
        · exact ⟨rs, hstg0, htgt, fun X => rfl⟩
      · rw [htgt] at htbl2
        injection htbl2 with htbl2
        subst htbl2
        refine ⟨[], lookup_setTable_self _ _ _ _, ?_, fun X => setTable_setTable_self _ _ _ _ _⟩
        rw [lookup_setTable_ne db "staging" ("[" ++ s ++ "_" ++ t ++ "]") s t _ hne]
        exact htgt
    cases h2 : sqlEngine.exec (Stmt.truncateTable "staging" ("[" ++ s ++ "_" ++ t ++ "]")) db0 with
    | error e => simp only [h2] at h; simp at h
    | ok p1 =>
      simp only [h2] at h
      rw [sqlEngine_exec_eq] at h2
      obtain ⟨tbl1, hlt, hp1⟩ := truncate_exec_ok_inv _ _ _ _ h2
      have htbl1 : tbl1 = ⟨tbl.cols, rs0⟩ := by
        have := hlt.symm.trans h_st0
        injection this
      subst htbl1
      rw [hp1] at h
      simp only at h
      rw [hcollapse] at h
      have h_st1 : lookupTable
          (setTable db "staging" ("[" ++ s ++ "_" ++ t ++ "]") ⟨tbl.cols, []⟩)
          "staging" ("[" ++ s ++ "_" ++ t ++ "]") = some ⟨tbl.cols, []⟩ :=
        lookup_setTable_self _ _ _ _
      cases h3 : sqlEngine.exec
          (Stmt.insertRows "staging" ("[" ++ s ++ "_" ++ t ++ "]") df.columns df.data)
          (setTable db "staging" ("[" ++ s ++ "_" ++ t ++ "]") ⟨tbl.cols, []⟩) with
      | error e => simp only [h3] at h; simp at h
      | ok p2 =>
        simp only [h3] at h
        rw [sqlEngine_exec_eq] at h3
        obtain ⟨tbl2, hlt2, hcases⟩ := insert_exec_ok_inv _ _ _ _ _ _ h3
        have htbl2 : tbl2 = ⟨tbl.cols, []⟩ := by
          have := hlt2.symm.trans h_st1
          injection this
        subst htbl2
        rcases hcases with ⟨hdata, hp2⟩ | ⟨hdne, hcolsub, hbind, hp2⟩
        · rw [hp2] at h
          simp only at h
          have hstagedeq : (⟨tbl.cols, ([] : List Row)⟩ : Table) =
              ⟨tbl.cols, List.map (projectRow tbl.cols df.columns) df.data⟩ := by
            rw [hdata]; rfl
          rw [hstagedeq] at h
          obtain ⟨c1, c2, c3, c4, c5, c6⟩ :=
            upsert_merge_final db db0 db' df s t ks tbl res htgt hne h
          exact ⟨c1, c2, c3, c4, c5, c6, Or.inl hdata⟩
        · rw [hp2] at h
          simp only at h
          rw [setTable_setTable_self] at h
          simp only [List.nil_append] at h
          obtain ⟨c1, c2, c3, c4, c5, c6⟩ :=
            upsert_merge_final db db0 db' df s t ks tbl res htgt hne h
          exact ⟨c1, c2, c3, c4, c5, c6, Or.inr ⟨hcolsub, hbind⟩⟩


/-- Forward evaluation of `upsert_data` on the SQL engine: when every
validity check passes, the run succeeds with the characterised result. -/
theorem upsert_sql_run
    (db : Database) (df : DataFrame) (s t : String) (ks : List String) (tbl : Table)
    (htgt : lookupTable db s t = some tbl)
    (hstg : stagingCompatible db (stagingNameOf s t) tbl.cols)
    (hks : ks ≠ [])
    (hnk : df.columns.filter (fun c => decide (c ∉ ks)) ≠ [])
    (hcols : ∀ k ∈ ks ++ df.columns, k ∈ tbl.cols)
    (hmlt : mergeHasMultiMatch ks tbl.rows (stagedRows tbl df) = false)
    (hins : df.data = [] ∨ ((∀ c ∈ df.columns, c ∈ tbl.cols) ∧
        ∀ r ∈ df.data, ∀ c ∈ df.columns, hasCol r c = true)) :
    upsert_data sqlEngine db df s t ks =
      (setTable
          (setTable db "staging" (stagingNameOf s t) ⟨tbl.cols, stagedRows tbl df⟩) s t
          ⟨tbl.cols,
            mergeUpdatedRows ks df.columns tbl.rows (stagedRows tbl df) ++
              (mergeInsertedSrc ks tbl.rows (stagedRows tbl df)).map
                (projectRow tbl.cols df.columns)⟩,
       Except.ok ⟨(mergeInsertedSrc ks tbl.rows (stagedRows tbl df)).length,
                  mergeUpdatedCount ks tbl.rows (stagedRows tbl df)⟩) := by
  unfold stagingNameOf at hstg ⊢
  unfold stagedRows at hmlt ⊢
  have hne : ((s, t) : String × String) ≠ ("staging", "[" ++ s ++ "_" ++ t ++ "]") :=
    targetKey_ne_stagingKey s t
  obtain ⟨db0, hexec1, hcollapse, h_tg0, rs0, h_st0⟩ : ∃ db0,
      sqlEngine.exec
          (Stmt.createStagingIfAbsent s t "staging" ("[" ++ s ++ "_" ++ t ++ "]")) db =
        Except.ok (db0, []) ∧
      (∀ X, setTable db0 "staging" ("[" ++ s ++ "_" ++ t ++ "]") X =
        setTable db "staging" ("[" ++ s ++ "_" ++ t ++ "]") X) ∧
      lookupTable db0 s t = some tbl ∧
      ∃ rs0, lookupTable db0 "staging" ("[" ++ s ++ "_" ++ t ++ "]") =
        some ⟨tbl.cols, rs0⟩ := by
    rcases hstg with h0 | ⟨rs, h0⟩
    · refine ⟨setTable db "staging" ("[" ++ s ++ "_" ++ t ++ "]") ⟨tbl.cols, []⟩,
        ?_, fun X => setTable_setTable_self _ _ _ _ _, ?_,
        ⟨[], lookup_setTable_self _ _ _ _⟩⟩
      · rw [sqlEngine_exec_eq]
        simp [sqlExec, h0, htgt]
      · rw [lookup_setTable_ne _ _ _ _ _ _ hne]
        exact htgt
    · refine ⟨db, ?_, fun X => rfl, htgt, ⟨rs, h0⟩⟩
      rw [sqlEngine_exec_eq]
      simp [sqlExec, h0]
  have hcr : create_staging_table_if_not_exists sqlEngine db s t "staging"
      ("[" ++ s ++ "_" ++ t ++ "]") = Except.ok db0 := by
    unfold create_staging_table_if_not_exists
    rw [hexec1]
  have hexec2 : sqlEngine.exec
      (Stmt.truncateTable "staging" ("[" ++ s ++ "_" ++ t ++ "]")) db0 =
      Except.ok (setTable db "staging" ("[" ++ s ++ "_" ++ t ++ "]") ⟨tbl.cols, []⟩, []) := by
    rw [sqlEngine_exec_eq]
    simp only [sqlExec, h_st0]
    rw [hcollapse]
  have hexec3 : sqlEngine.exec
      (Stmt.insertRows "staging" ("[" ++ s ++ "_" ++ t ++ "]") df.columns df.data)
      (setTable db "staging" ("[" ++ s ++ "_" ++ t ++ "]") ⟨tbl.cols, []⟩) =
      Except.ok (setTable db "staging" ("[" ++ s ++ "_" ++ t ++ "]")
        ⟨tbl.cols, List.map (projectRow tbl.cols df.columns) df.data⟩, []) := by
    rw [sqlEngine_exec_eq]
    by_cases hdata : df.data = []
    · simp only [sqlExec, lookup_setTable_self]
      rw [if_pos (by rw [hdata]; rfl)]
      rw [hdata]
      simp
    · obtain ⟨hsub, hbind⟩ := hins.resolve_left hdata
      have hcolsne : df.columns ≠ [] := by
        intro hc
        apply hnk
        rw [hc]
        rfl
      have hall1 : df.columns.all (fun c => decide (c ∈ tbl.cols)) = true :=
        List.all_eq_true.mpr fun c hc => by simpa using hsub c hc
      have hall2 : df.data.all (fun r => df.columns.all (fun c => hasCol r c)) = true :=
        List.all_eq_true.mpr fun r hr => List.all_eq_true.mpr fun c hc => hbind r hr c hc
      simp only [sqlExec, lookup_setTable_self]
      rw [if_neg (fun hc => hdata (List.isEmpty_iff.mp hc)),
          if_neg (fun hc => hcolsne (List.isEmpty_iff.mp hc)), hall1]
      simp only [Bool.not_true]
      rw [if_neg (by simp), hall2]
      simp only [Bool.not_true]
      rw [if_neg (by simp)]
      rw [setTable_setTable_self]
      simp
  have h_tg2 : lookupTable (setTable db "staging" ("[" ++ s ++ "_" ++ t ++ "]")
      ⟨tbl.cols, List.map (projectRow tbl.cols df.columns) df.data⟩) s t = some tbl := by
    rw [lookup_setTable_ne _ _ _ _ _ _ hne]
    exact htgt
  have hall3 : (ks ++ df.columns).all
      (fun c => decide (c ∈ tbl.cols) &&
        decide (c ∈ (⟨tbl.cols, List.map (projectRow tbl.cols df.columns) df.data⟩ :
          Table).cols)) = true := by
    apply List.all_eq_true.mpr
    intro c hc
    have := hcols c hc
    simp only
    simp [this]
  have hexec4 : sqlEngine.exec
      (Stmt.mergeStmt s t "staging" ("[" ++ s ++ "_" ++ t ++ "]") ks df.columns)
      (setTable db "staging" ("[" ++ s ++ "_" ++ t ++ "]")
        ⟨tbl.cols, List.map (projectRow tbl.cols df.columns) df.data⟩) =
      Except.ok
        (setTable
          (setTable db "staging" ("[" ++ s ++ "_" ++ t ++ "]")
            ⟨tbl.cols, List.map (projectRow tbl.cols df.columns) df.data⟩) s t
          ⟨tbl.cols,
            mergeUpdatedRows ks df.columns tbl.rows
                (List.map (projectRow tbl.cols df.columns) df.data) ++
              (mergeInsertedSrc ks tbl.rows
                  (List.map (projectRow tbl.cols df.columns) df.data)).map
                (projectRow tbl.cols df.columns)⟩,
         [((mergeInsertedSrc ks tbl.rows
              (List.map (projectRow tbl.cols df.columns) df.data)).length,
           mergeUpdatedCount ks tbl.rows
             (List.map (projectRow tbl.cols df.columns) df.data))]) := by
    rw [sqlEngine_exec_eq]
    simp only [sqlExec, h_tg2, lookup_setTable_self]
    rw [if_neg (fun hc => hks (List.isEmpty_iff.mp hc)),
        if_neg (fun hc => hnk (List.isEmpty_iff.mp hc)), hall3]
    simp only [Bool.not_true]
    rw [if_neg (by simp), hmlt]
    rw [if_neg (by simp)]
  simp only [upsert_data, hcr, hexec2, hexec3, hexec4, readMergeCounts_single]


/-! ### Claim theorems -/

/-- C1: whenever the truncate, bulk-load or merge step of `upsert_data`
fails (the call returns an error), the transaction is rolled back and the
target table's content is exactly what it was before the call. -/
theorem claim_C1_rollback_leaves_target_unchanged
    (db : Database) (df : DataFrame) (s t : String) (ks : List String)
    (db' : Database) (e : PyError)
    (h : upsert_data sqlEngine db df s t ks = (db', Except.error e)) :
    lookupTable db' s t = lookupTable db s t := by
  have hne : ((s, t) : String × String) ≠ ("staging", "[" ++ s ++ "_" ++ t ++ "]") :=
    targetKey_ne_stagingKey s t
  simp only [upsert_data] at h
  cases h1 : create_staging_table_if_not_exists sqlEngine db s t "staging"
      ("[" ++ s ++ "_" ++ t ++ "]") with
  | error e2 =>
    simp only [h1] at h
    rw [Prod.mk.injEq] at h
    rw [← h.1]
  | ok db0 =>
    simp only [h1] at h
    have hdb0 : lookupTable db0 s t = lookupTable db s t := by
      rcases create_staging_ok_inv db s t "staging" _ db0 h1 with
        ⟨w, hw, rfl⟩ | ⟨habs, tbl2, htbl2, rfl⟩
      · rfl
      · rw [lookup_setTable_ne _ _ _ _ _ _ hne]
    cases h2 : sqlEngine.exec
        (Stmt.truncateTable "staging" ("[" ++ s ++ "_" ++ t ++ "]")) db0 with
    | error e2 =>
      simp only [h2] at h
      rw [Prod.mk.injEq] at h
      rw [← h.1]
      exact hdb0
    | ok p1 =>
      simp only [h2] at h
      cases h3 : sqlEngine.exec
          (Stmt.insertRows "staging" ("[" ++ s ++ "_" ++ t ++ "]") df.columns df.data)
          p1.1 with
      | error e2 =>
        simp only [h3] at h
        rw [Prod.mk.injEq] at h
        rw [← h.1]
        exact hdb0
      | ok p2 =>
        simp only [h3] at h
        cases h4 : sqlEngine.exec
            (Stmt.mergeStmt s t "staging" ("[" ++ s ++ "_" ++ t ++ "]") ks df.columns)
            p2.1 with
        | error e2 =>
          simp only [h4] at h
          rw [Prod.mk.injEq] at h
          rw [← h.1]
          exact hdb0
        | ok p3 =>
          simp only [h4] at h
          rw [Prod.mk.injEq] at h
          exact absurd h.2 (by simp)

/-- Witness for C1: a bulk load whose batch column `x` does not exist in the
target table fails, and the target table is unchanged. -/
theorem claim_C1_witness :
    lookupTable
        [(("s", "t"), ⟨["k", "v"], []⟩),
         (("staging", "[s_t]"), ⟨["k", "v"], []⟩)] "s" "t" =
      lookupTable [(("s", "t"), ⟨["k", "v"], []⟩)] "s" "t" :=
  claim_C1_rollback_leaves_target_unchanged
    [(("s", "t"), ⟨["k", "v"], []⟩)]
    ⟨["x"], [[("x", Value.intV 1)]]⟩ "s" "t" ["k"]
    [(("s", "t"), ⟨["k", "v"], []⟩), (("staging", "[s_t]"), ⟨["k", "v"], []⟩)]
    PyError.columnError (by decide)


/-- Every error the SQL engine raises is a driver-level error, never the
spec's `UpsertError` wrapper. -/
theorem sqlExec_error_not_wrapped (st : Stmt) (db : Database) (e : PyError)
    (h : sqlExec st db = Except.error e) : isUpsertErrorWrapped e = false := by
  cases st <;> simp only [sqlExec] at h <;> (repeat' split at h) <;>
    first
      | (injection h with h2; subst h2; rfl)
      | injection h

/-- C5, counterexample: the claim says a failing upsert surfaces an
`UpsertError` wrapping the cause; on this failing input the surfaced error
is the raw driver error itself (`raise e` re-raises it unchanged). -/
theorem claim_C5_cex :
    (upsert_data sqlEngine [(("s", "t"), ⟨["k", "v"], []⟩)]
        ⟨["x"], [[("x", Value.intV 1)]]⟩ "s" "t" ["k"]).2 =
      Except.error PyError.columnError ∧
    isUpsertErrorWrapped PyError.columnError = false := by decide

/-- C5, amended: on any failure of the truncate, load or merge step the
transaction is rolled back and the raw underlying exception propagates
unchanged; it is never wrapped in an `UpsertError`. -/
theorem claim_C5_raw_error_propagates
    (db : Database) (df : DataFrame) (s t : String) (ks : List String)
    (db' : Database) (e : PyError)
    (h : upsert_data sqlEngine db df s t ks = (db', Except.error e)) :
    isUpsertErrorWrapped e = false := by
  simp only [upsert_data] at h
  cases h1 : create_staging_table_if_not_exists sqlEngine db s t "staging"
      ("[" ++ s ++ "_" ++ t ++ "]") with
  | error e2 =>
    simp only [h1] at h
    rw [Prod.mk.injEq] at h
    obtain ⟨-, he⟩ := h
    injection he with he
    subst he
    unfold create_staging_table_if_not_exists at h1
    cases hx : sqlEngine.exec
        (Stmt.createStagingIfAbsent s t "staging" ("[" ++ s ++ "_" ++ t ++ "]")) db with
    | error e3 =>
      rw [hx] at h1
      injection h1 with h1
      subst h1
      rw [sqlEngine_exec_eq] at hx
      exact sqlExec_error_not_wrapped _ _ _ hx
    | ok p => rw [hx] at h1; cases h1
  | ok db0 =>
    simp only [h1] at h
    cases h2 : sqlEngine.exec
        (Stmt.truncateTable "staging" ("[" ++ s ++ "_" ++ t ++ "]")) db0 with
    | error e2 =>
      simp only [h2] at h
      rw [Prod.mk.injEq] at h
      obtain ⟨-, he⟩ := h
      injection he with he
      subst he
      rw [sqlEngine_exec_eq] at h2
      exact sqlExec_error_not_wrapped _ _ _ h2
    | ok p1 =>
      simp only [h2] at h
      cases h3 : sqlEngine.exec
          (Stmt.insertRows "staging" ("[" ++ s ++ "_" ++ t ++ "]") df.columns df.data)
          p1.1 with
      | error e2 =>
        simp only [h3] at h
        rw [Prod.mk.injEq] at h
        obtain ⟨-, he⟩ := h
        injection he with he
        subst he
        rw [sqlEngine_exec_eq] at h3
        exact sqlExec_error_not_wrapped _ _ _ h3
      | ok p2 =>
        simp only [h3] at h
        cases h4 : sqlEngine.exec
            (Stmt.mergeStmt s t "staging" ("[" ++ s ++ "_" ++ t ++ "]") ks df.columns)
            p2.1 with
        | error e2 =>
          simp only [h4] at h
          rw [Prod.mk.injEq] at h
          obtain ⟨-, he⟩ := h
          injection he with he
          subst he
          rw [sqlEngine_exec_eq] at h4
          exact sqlExec_error_not_wrapped _ _ _ h4
        | ok p3 =>
          simp only [h4] at h
          rw [Prod.mk.injEq] at h
          exact absurd h.2 (by simp)

/-- Witness for the amended C5 theorem on a concrete failing run. -/
theorem claim_C5_witness : isUpsertErrorWrapped PyError.columnError = false :=
  claim_C5_raw_error_propagates
    [(("s", "t"), ⟨["k", "v"], []⟩)]
    ⟨["x"], [[("x", Value.intV 1)]]⟩ "s" "t" ["k"]
    [(("s", "t"), ⟨["k", "v"], []⟩), (("staging", "[s_t]"), ⟨["k", "v"], []⟩)]
    PyError.columnError (by decide)


/-- The outcome of `upsert_data` does not depend on rows left in the staging
table: the run truncates it before loading, so starting from any staging
residue the returned result (or error) is computed from the post-truncate
state. -/
theorem upsert_on_reset_staging
    (db : Database) (df : DataFrame) (s t : String) (ks : List String)
    (scols : List String) (r : List Row) :
    (upsert_data sqlEngine
        (setTable db "staging" (stagingNameOf s t) ⟨scols, r⟩) df s t ks).2 =
      (match sqlEngine.exec
          (Stmt.insertRows "staging" (stagingNameOf s t) df.columns df.data)
          (setTable db "staging" (stagingNameOf s t) ⟨scols, []⟩) with
        | Except.error e => Except.error e
        | Except.ok p2 =>
          match sqlEngine.exec
              (Stmt.mergeStmt s t "staging" (stagingNameOf s t) ks df.columns) p2.1 with
          | Except.error e => Except.error e
          | Except.ok p3 =>
            Except.ok (⟨(readMergeCounts p3.2).1, (readMergeCounts p3.2).2⟩ :
              UpsertResult)) := by
  unfold stagingNameOf
  have hexec1 : sqlEngine.exec
      (Stmt.createStagingIfAbsent s t "staging" ("[" ++ s ++ "_" ++ t ++ "]"))
      (setTable db "staging" ("[" ++ s ++ "_" ++ t ++ "]") ⟨scols, r⟩) =
      Except.ok (setTable db "staging" ("[" ++ s ++ "_" ++ t ++ "]") ⟨scols, r⟩, []) := by
    rw [sqlEngine_exec_eq]
    simp [sqlExec, lookup_setTable_self]
  have hcr : create_staging_table_if_not_exists sqlEngine
      (setTable db "staging" ("[" ++ s ++ "_" ++ t ++ "]") ⟨scols, r⟩) s t "staging"
      ("[" ++ s ++ "_" ++ t ++ "]") =
      Except.ok (setTable db "staging" ("[" ++ s ++ "_" ++ t ++ "]") ⟨scols, r⟩) := by
    unfold create_staging_table_if_not_exists
    rw [hexec1]
  have hexec2 : sqlEngine.exec
      (Stmt.truncateTable "staging" ("[" ++ s ++ "_" ++ t ++ "]"))
      (setTable db "staging" ("[" ++ s ++ "_" ++ t ++ "]") ⟨scols, r⟩) =
      Except.ok (setTable db "staging" ("[" ++ s ++ "_" ++ t ++ "]") ⟨scols, []⟩, []) := by
    rw [sqlEngine_exec_eq]
    simp only [sqlExec, lookup_setTable_self]
    rw [setTable_setTable_self]
  simp only [upsert_data, hcr, hexec2]
  cases h3 : sqlEngine.exec
      (Stmt.insertRows "staging" ("[" ++ s ++ "_" ++ t ++ "]") df.columns df.data)
      (setTable db "staging" ("[" ++ s ++ "_" ++ t ++ "]") ⟨scols, []⟩) with
  | error e => simp
  | ok p2 =>
    simp only
    cases h4 : sqlEngine.exec
        (Stmt.mergeStmt s t "staging" ("[" ++ s ++ "_" ++ t ++ "]") ks df.columns)
        p2.1 with
    | error e => simp
    | ok p3 => simp


/-- C10: the two counters start at zero and are only overwritten by rows of
the merge result.  First part: for any engine, an invocation whose merge
statement yields no result rows returns `UpsertResult 0 0`.  Second part:
on the SQL engine, a successful run with an empty batch returns
`UpsertResult 0 0`. -/
theorem claim_C10_zero_counters :
    (∀ (engine : Engine) (db : Database) (df : DataFrame) (s t : String)
        (ks : List String) (db0 : Database)
        (p1 p2 : Database × List (Nat × Nat)) (db3 : Database),
      create_staging_table_if_not_exists engine db s t "staging" (stagingNameOf s t) =
          Except.ok db0 →
      engine.exec (Stmt.truncateTable "staging" (stagingNameOf s t)) db0 =
          Except.ok p1 →
      engine.exec (Stmt.insertRows "staging" (stagingNameOf s t) df.columns df.data)
          p1.1 = Except.ok p2 →
      engine.exec (Stmt.mergeStmt s t "staging" (stagingNameOf s t) ks df.columns)
          p2.1 = Except.ok (db3, []) →
      upsert_data engine db df s t ks = (db3, Except.ok ⟨0, 0⟩)) ∧
    (∀ (db : Database) (df : DataFrame) (s t : String) (ks : List String)
        (db' : Database) (res : UpsertResult),
      df.data = [] →
      upsert_data sqlEngine db df s t ks = (db', Except.ok res) →
      res = ⟨0, 0⟩) := by
  constructor
  · intro engine db df s t ks db0 p1 p2 db3 h0 h1 h2 h3
    unfold stagingNameOf at h0 h1 h2 h3
    simp only [upsert_data, h0, h1, h2, h3, readMergeCounts_nil]
  · intro db df s t ks db' res hdata h
    simp only [upsert_data] at h
    cases h1 : create_staging_table_if_not_exists sqlEngine db s t "staging"
        ("[" ++ s ++ "_" ++ t ++ "]") with
    | error e => rw [h1] at h; simp at h
    | ok db0 =>
      simp only [h1] at h
      cases h2 : sqlEngine.exec
          (Stmt.truncateTable "staging" ("[" ++ s ++ "_" ++ t ++ "]")) db0 with
      | error e => simp only [h2] at h; simp at h
      | ok p1 =>
        simp only [h2] at h
        rw [sqlEngine_exec_eq] at h2
        obtain ⟨tblS, hlt, hp1⟩ := truncate_exec_ok_inv _ _ _ _ h2
        have hexec3 : sqlEngine.exec
            (Stmt.insertRows "staging" ("[" ++ s ++ "_" ++ t ++ "]") df.columns df.data)
            p1.1 = Except.ok (p1.1, []) := by
          rw [sqlEngine_exec_eq, hp1]
          simp only [sqlExec, lookup_setTable_self]
          rw [if_pos (by rw [hdata]; rfl)]
        simp only [hexec3] at h
        cases h4 : sqlEngine.exec
            (Stmt.mergeStmt s t "staging" ("[" ++ s ++ "_" ++ t ++ "]") ks df.columns)
            p1.1 with
        | error e => simp only [h4] at h; simp at h
        | ok p3 =>
          simp only [h4] at h
          rw [sqlEngine_exec_eq] at h4
          obtain ⟨tgt2, stg2, hts2, hss2, hk1, hk2, hk3, hk4, hp3⟩ :=
            merge_exec_ok_inv _ _ _ _ _ _ _ _ h4
          have hstg2 : stg2 = ⟨tblS.cols, []⟩ := by
            rw [hp1] at hss2
            simp only at hss2
            rw [lookup_setTable_self] at hss2
            injection hss2 with h5
            exact h5.symm
          rw [Prod.mk.injEq] at h
          obtain ⟨-, hres⟩ := h
          rw [Except.ok.injEq] at hres
          rw [← hres, hp3]
          rw [hstg2] at *
          simp [mergeInsertedSrc, mergeUpdatedCount, readMergeCounts]

/-- Witness for C10: the first conjunct applied to the trivially succeeding
engine, whose statements all return no result rows. -/
theorem claim_C10_witness :
    upsert_data okEngine [] ⟨["k"], []⟩ "s" "t" ["k"] = ([], Except.ok ⟨0, 0⟩) :=
  claim_C10_zero_counters.1 okEngine [] ⟨["k"], []⟩ "s" "t" ["k"] [] ([], []) ([], [])
    [] (by decide) (by decide) (by decide) (by decide)


theorem valueGtDt_iff (v : Value) (w : Datetime) :
    valueGtDt v w = true ↔ ∃ d, v = Value.dtV d ∧ w < d := by
  cases v <;> simp [valueGtDt]

/-- C8: `get_new_data` returns exactly the rows of the source table whose
watermark column holds a value strictly greater than the given timestamp;
rows equal to the timestamp (and NULL or absent values) are excluded.  The
function only reads the source store: it is a pure function of the source
database state. -/
theorem claim_C8_strict_watermark_filter
    (db : Database) (s t col : String) (wm : Datetime) (tbl : Table) (df' : DataFrame)
    (htbl : lookupTable db s t = some tbl)
    (h : get_new_data db s t col wm = Except.ok df') :
    df'.data = tbl.rows.filter (fun r => valueGtDt (getVal r col) wm) ∧
    (∀ r, r ∈ df'.data ↔ r ∈ tbl.rows ∧ ∃ d, getVal r col = Value.dtV d ∧ wm < d) ∧
    (∀ r ∈ tbl.rows, getVal r col = Value.dtV wm → r ∉ df'.data) := by
  unfold get_new_data at h
  simp only [htbl] at h
  by_cases hc : col ∈ tbl.cols
  · rw [if_pos hc] at h
    injection h with h
    subst h
    refine ⟨rfl, ?_, ?_⟩
    · intro r
      simp only [List.mem_filter]
      constructor
      · rintro ⟨hr, hp⟩
        exact ⟨hr, (valueGtDt_iff _ _).mp hp⟩
      · rintro ⟨hr, hp⟩
        exact ⟨hr, (valueGtDt_iff _ _).mpr hp⟩
    · intro r hr heq hmem
      rw [List.mem_filter] at hmem
      obtain ⟨d, hd, hlt⟩ := (valueGtDt_iff _ _).mp hmem.2
      rw [heq] at hd
      injection hd with hd
      rw [hd] at hlt
      exact lt_irrefl d hlt
  · rw [if_neg hc] at h
    cases h

/-- Witness for C8 at a concrete source table and timestamp. -/
theorem claim_C8_witness :
    (⟨["m"], [[("m", Value.dtV 5)]]⟩ : DataFrame).data =
      ([[("m", Value.dtV 5)], [("m", Value.dtV 3)], [("m", Value.null)]] : List Row).filter
        (fun r => valueGtDt (getVal r "m") 3) :=
  (claim_C8_strict_watermark_filter
    [(("[a]", "[b]"),
      ⟨["m"], [[("m", Value.dtV 5)], [("m", Value.dtV 3)], [("m", Value.null)]]⟩)]
    "[a]" "[b]" "m" 3
    ⟨["m"], [[("m", Value.dtV 5)], [("m", Value.dtV 3)], [("m", Value.null)]]⟩
    ⟨["m"], [[("m", Value.dtV 5)]]⟩ (by decide) (by decide)).1


theorem maxRun_eq_none_iff (l : List Datetime) : maxRun l = none ↔ l = [] := by
  cases l with
  | nil => simp [maxRun]
  | cons d ds =>
    simp only [maxRun]
    cases maxRun ds <;> simp

theorem maxRun_spec (l : List Datetime) (hl : l ≠ []) :
    ∃ m, maxRun l = some m ∧ m ∈ l ∧ ∀ v ∈ l, v ≤ m := by
  induction l with
  | nil => exact absurd rfl hl
  | cons d ds ih =>
    by_cases hds : ds = []
    · subst hds
      exact ⟨d, rfl, List.mem_singleton_self d, by simp⟩
    · obtain ⟨m, hm, hmem, hle⟩ := ih hds
      refine ⟨max d m, ?_, ?_, ?_⟩
      · simp [maxRun, hm]
      · rcases Nat.le_total d m with hdm | hmd
        · exact List.mem_cons_of_mem d (by rw [Nat.max_eq_right hdm]; exact hmem)
        · rw [Nat.max_eq_left hmd]; exact List.mem_cons_self d ds
      · intro v hv
        rcases List.mem_cons.mp hv with rfl | hv'
        · exact Nat.le_max_left _ _
        · exact le_trans (hle v hv') (Nat.le_max_right _ _)

/-- C6, counterexample: for a table with no recorded prior run the
Watermark Reader returns `None`, not the beginning-of-time sentinel — the
sentinel substitution happens later, in `process_tables`. -/
theorem claim_C6_cex :
    get_last_run_datetime [(("[a]", "[b]"), ⟨["last_run_datetime"], []⟩)] "[a]" "[b]" =
      Except.ok none ∧
    (Except.ok (none : Option Datetime) :
      Except PyError (Option Datetime)) ≠ Except.ok (some datetimeMin) := by
  decide

/-- C6, amended: with no recorded prior run `get_last_run_datetime` returns
`None`; `process_tables` (via `last_run_or_min`) replaces that `None` by the
`datetime.min` sentinel; with runs recorded it returns the maximum recorded
`last_run_datetime` value. -/
theorem claim_C6_watermark_none_and_max :
    (∀ (db : Database) (s t : String) (tbl : Table),
      lookupTable db s t = some tbl →
      "last_run_datetime" ∈ tbl.cols →
      recordedRuns tbl.rows = [] →
      get_last_run_datetime db s t = Except.ok none) ∧
    (∀ (db : Database) (s t : String) (tbl : Table),
      lookupTable db s t = some tbl →
      "last_run_datetime" ∈ tbl.cols →
      recordedRuns tbl.rows ≠ [] →
      ∃ m, get_last_run_datetime db s t = Except.ok (some m) ∧
        m ∈ recordedRuns tbl.rows ∧ ∀ v ∈ recordedRuns tbl.rows, v ≤ m) ∧
    (∀ (db : Database) (s t : String),
      get_last_run_datetime db s t = Except.ok none →
      last_run_or_min db s t = Except.ok datetimeMin) := by
  refine ⟨?_, ?_, ?_⟩
  · intro db s t tbl htbl hcol hrec
    unfold get_last_run_datetime
    simp only [htbl]
    rw [if_pos hcol, hrec]
    rfl
  · intro db s t tbl htbl hcol hrec
    obtain ⟨m, hm, hmem, hle⟩ := maxRun_spec _ hrec
    refine ⟨m, ?_, hmem, hle⟩
    unfold get_last_run_datetime
    simp only [htbl]
    rw [if_pos hcol, hm]
  · intro db s t h
    unfold last_run_or_min
    rw [h]
    rfl

/-- Witness for the amended C6 theorem: an empty run-metadata table yields
`None` at a concrete input. -/
theorem claim_C6_witness :
    get_last_run_datetime [(("[a]", "[b]"), ⟨["last_run_datetime"], []⟩)] "[a]" "[b]" =
      Except.ok none :=
  claim_C6_watermark_none_and_max.1
    [(("[a]", "[b]"), ⟨["last_run_datetime"], []⟩)] "[a]" "[b]"
    ⟨["last_run_datetime"], []⟩ (by decide) (by decide) (by decide)


/-- C9, counterexample: a configuration whose only descriptor lacks the
schema, key-column and watermark fields loads successfully — the loader
performs no per-descriptor validation and raises no ConfigError; the
missing field only surfaces later, as a KeyError, when `process_tables`
processes that descriptor. -/
theorem claim_C9_cex :
    load_table_list_from_json
        (ConfigFile.content
          (Json.jobj [("tables", Json.jarr [Json.jobj [("name", Json.jstr "t1")]])])) =
      Except.ok (Json.jarr [Json.jobj [("name", Json.jstr "t1")]]) ∧
    process_one [] [] (Json.jobj [("name", Json.jstr "t1")]) =
      Except.error (PyError.keyError "schema") := by
  constructor
  · rfl
  · rfl

/-- C9, amended: the loader fails only when the configuration source is
missing (raising the file-not-found error) or unparsable (raising the JSON
decode error) — there is no ConfigError type and no field validation; on
success it returns the configured `tables` value unchanged and in order
(defaulting to an empty list when the key is absent), and a descriptor
lacking a required field fails later, during processing, with a KeyError
naming the field. -/
theorem claim_C9_loader_no_validation :
    load_table_list_from_json ConfigFile.missing = Except.error PyError.fileNotFound ∧
    load_table_list_from_json ConfigFile.malformed =
      Except.error PyError.jsonDecodeError ∧
    (∀ (kvs : List (String × Json)) (v : Json),
      jsonLookup kvs "tables" = some v →
      load_table_list_from_json (ConfigFile.content (Json.jobj kvs)) = Except.ok v) ∧
    (∀ kvs : List (String × Json),
      jsonLookup kvs "tables" = none →
      load_table_list_from_json (ConfigFile.content (Json.jobj kvs)) =
        Except.ok (Json.jarr [])) ∧
    (∀ (src tdb : Database) (kvs : List (String × Json)),
      jsonLookup kvs "schema" = none →
      process_one src tdb (Json.jobj kvs) = Except.error (PyError.keyError "schema")) := by
  refine ⟨rfl, rfl, ?_, ?_, ?_⟩
  · intro kvs v h
    simp [load_table_list_from_json, h]
  · intro kvs h
    simp [load_table_list_from_json, h]
  · intro src tdb kvs h
    simp only [process_one, dictGet, h]
    rfl

/-- Witness for the amended C9 theorem: the `tables` value is returned
as-is at a concrete configuration. -/
theorem claim_C9_witness :
    load_table_list_from_json
        (ConfigFile.content
          (Json.jobj [("tables", Json.jarr [Json.jobj [("schema", Json.jstr "s")]])])) =
      Except.ok (Json.jarr [Json.jobj [("schema", Json.jstr "s")]]) :=
  claim_C9_loader_no_validation.2.2.1
    [("tables", Json.jarr [Json.jobj [("schema", Json.jstr "s")]])]
    (Json.jarr [Json.jobj [("schema", Json.jstr "s")]]) rfl


/-- Pairwise-distinct literal key tuples make the non-NULL join keys of a
row list pairwise distinct. -/
theorem nodup_filterMap_keyOf (ks : List String) (l : List Row)
    (h : (l.map (keyTuple ks)).Nodup) : (l.filterMap (keyOf ks)).Nodup := by
  induction l with
  | nil => simp
  | cons r l2 ih =>
    rw [List.map_cons, List.nodup_cons] at h
    rw [List.filterMap_cons]
    cases hk : keyOf ks r with
    | none => exact ih h.2
    | some v =>
      rw [List.nodup_cons]
      refine ⟨?_, ih h.2⟩
      intro hv
      obtain ⟨r2, hr2, hkr2⟩ := List.mem_filterMap.mp hv
      obtain ⟨-, hv2⟩ := (keyOf_eq_some_iff _ _ _).mp hkr2
      obtain ⟨-, hv1⟩ := (keyOf_eq_some_iff _ _ _).mp hk
      exact h.1 (List.mem_map.mpr ⟨r2, hr2, hv2.symm.trans hv1⟩)

/-- Projecting a batch onto the staging shape preserves the join keys when
each key column is among both column lists. -/
theorem filterMap_keyOf_staged (ks cols tcols : List String) (data : List Row)
    (hk : ∀ k ∈ ks, k ∈ cols) (hk2 : ∀ k ∈ ks, k ∈ tcols) :
    (data.map (projectRow tcols cols)).filterMap (keyOf ks) =
      data.filterMap (keyOf ks) := by
  rw [List.filterMap_map]
  congr 1
  funext r
  exact keyOf_projectRow ks cols tcols r hk hk2

/-- If some key column is missing from the batch columns (or the staging
shape), every staged row has a NULL key and the join-key list is empty. -/
theorem filterMap_keyOf_staged_nil (ks cols tcols : List String) (data : List Row)
    (k0 : String) (hk0 : k0 ∈ ks) (h : k0 ∉ cols ∨ k0 ∉ tcols) :
    (data.map (projectRow tcols cols)).filterMap (keyOf ks) = [] := by
  rw [List.filterMap_eq_nil_iff]
  intro a ha
  obtain ⟨r, _, rfl⟩ := List.mem_map.mp ha
  exact keyOf_projectRow_none ks cols tcols r k0 hk0 h


theorem projectRow_projectRow (tcols cols : List String) (r : Row) :
    projectRow tcols cols (projectRow tcols cols r) = projectRow tcols cols r := by
  unfold projectRow
  apply List.map_congr_left
  intro c hc
  by_cases hcc : c ∈ cols
  · simp only [if_pos hcc]
    rw [getVal_map_keyfun tcols (fun x => if x ∈ cols then getVal r x else Value.null) c]
    rw [if_pos hc, if_pos hcc]
  · simp only [if_neg hcc]

/-- In a row list with pairwise-distinct join keys, the first row matching
`t` is the (unique) member known to match it. -/
theorem find?_unique_matcher (ks : List String) (l : List Row)
    (hnd : (l.filterMap (keyOf ks)).Nodup) (t s : Row)
    (hs : s ∈ l) (hm : keysMatch ks t s = true) :
    l.find? (fun x => keysMatch ks t x) = some s := by
  cases hf : l.find? (fun x => keysMatch ks t x) with
  | none =>
    rw [List.find?_eq_none] at hf
    exact absurd hm (by simpa using hf s hs)
  | some s0 =>
    have h1 : keysMatch ks t s0 = true := List.find?_some hf
    have h2 : s0 ∈ l := List.mem_of_find?_eq_some hf
    obtain ⟨v, hvt, hvs0⟩ := (keysMatch_iff_keyOf _ _ _).mp h1
    obtain ⟨w, hwt, hws⟩ := (keysMatch_iff_keyOf _ _ _).mp hm
    rw [hvt] at hwt
    injection hwt with hwt
    subst hwt
    exact congrArg some (eq_of_keyOf_nodup l (keyOf ks) hnd s0 s h2 hs v hvs0 hws)



theorem keysMatch_updateRow_left (ks cols : List String) (tr s x : Row) :
    keysMatch ks (updateRow ks cols tr s) x = keysMatch ks tr x :=
  keysMatch_congr_left ks _ tr x fun k hk => getVal_updateRow_key ks cols tr s k hk

theorem mergeUpdatedRows_append (ks cols : List String) (l1 l2 stg : List Row) :
    mergeUpdatedRows ks cols (l1 ++ l2) stg =
      mergeUpdatedRows ks cols l1 stg ++ mergeUpdatedRows ks cols l2 stg := by
  unfold mergeUpdatedRows
  exact List.map_append _ _ _

theorem mergeUpdatedRows_eq_self (ks cols : List String) (stg l : List Row)
    (h : ∀ y ∈ l,
      (match stg.find? (fun x => keysMatch ks y x) with
        | some s => updateRow ks cols y s
        | none => y) = y) :
    mergeUpdatedRows ks cols l stg = l := by
  unfold mergeUpdatedRows
  conv_rhs => rw [← List.map_id' l]
  exact List.map_congr_left h


end UpsertModel
